import Mathlib

/-!
Shallow embedding of the learning-path generation pipeline implemented in
`steps/agents/generate_learning_path_step.py` (class `LearningPathGenerator`
and the module-level `handler`).

Modelling conventions:
* Python text is `List Char` (abbreviated `Chars`); `str.strip` is `pyStrip`
  (whitespace is modelled with `Char.isWhitespace`, which covers the space,
  tab, CR and LF characters).
* Values produced by `json.loads` are the inductive `Json`.  Python `dict`s
  keep insertion order and overwrite on duplicate keys, which `jSetKey`
  mirrors.  Numbers are modelled as integers (the repository's claims never
  depend on fractional number literals), and `\u` escapes are decoded
  without surrogate-pair combination.
* The LLM client, the clock and the process environment are oracle inputs:
  each `ainvoke` either returns text or raises (`Except Chars Chars`), and
  `datetime.now()` is an opaque number/string supplied by the `Oracle`.
* Raising Python code is modelled with `Except`; an `Except.error` value at
  a stage boundary is an exception propagating out of that stage.
-/

/-- Python text, modelled as a list of characters. -/
abbrev Chars := List Char

/-- The backtick character (code point 96). -/
def btick : Char := Char.ofNat 96

/-- The three-character code-fence marker the source splits on. -/
def fenceMark : Chars := [btick, btick, btick]

/-- The fence language tag whose four characters the source drops. -/
def langTag : Chars := "json".toList

/-- Drop leading whitespace. -/
def stripLeft (l : Chars) : Chars := l.dropWhile Char.isWhitespace

/-- Drop trailing whitespace. -/
def stripRight (l : Chars) : Chars := (l.reverse.dropWhile Char.isWhitespace).reverse

/-- Python `str.strip()`: drop whitespace from both ends. -/
def pyStrip (l : Chars) : Chars := stripRight (stripLeft l)

/-- Worker for Python `str.split` specialised to the separator made of three
backticks: scan left to right, cutting at each leftmost non-overlapping
occurrence of the separator. `acc` is the segment built so far. -/
def fenceSplitGo (acc : Chars) : Chars → List Chars
  | [] => [acc]
  | [c] => [acc ++ [c]]
  | [c1, c2] => [acc ++ [c1, c2]]
  | c1 :: c2 :: c3 :: rest =>
    if c1 = btick ∧ c2 = btick ∧ c3 = btick then acc :: fenceSplitGo [] rest
    else fenceSplitGo (acc ++ [c1]) (c2 :: c3 :: rest)

/-- Python `content.split` on the triple-backtick separator. -/
def fenceSplit (l : Chars) : List Chars := fenceSplitGo [] l

/-- Whether the triple-backtick fence marker occurs anywhere in the text. -/
def hasFence : Chars → Bool
  | c1 :: c2 :: c3 :: rest =>
    (c1 = btick && c2 = btick && c3 = btick) || hasFence (c2 :: c3 :: rest)
  | _ => false

/-- JSON values as produced by `json.loads`.  Objects are ordered key/value
lists with distinct keys (Python dict insertion order). -/
inductive Json where
  | null : Json
  | bool : Bool → Json
  | num : Int → Json
  | str : Chars → Json
  | arr : List Json → Json
  | obj : List (Chars × Json) → Json

/-- Lookup in an object's key/value list (Python `dict` access). -/
def jLookup : List (Chars × Json) → Chars → Option Json
  | [], _ => none
  | (k, v) :: rest, key => if k = key then some v else jLookup rest key

/-- Python `dict` assignment: overwrite an existing key in place, otherwise
append the new key at the end (insertion order). -/
def jSetKey : List (Chars × Json) → Chars → Json → List (Chars × Json)
  | [], key, v => [(key, v)]
  | (k, w) :: rest, key, v =>
    if k = key then (k, v) :: rest else (k, w) :: jSetKey rest key v

/-- Python `d[key] = v` on a value already known to be a dict; non-objects are
returned unchanged (every call site guards the object case separately). -/
def jSet (j : Json) (key : Chars) (v : Json) : Json :=
  match j with
  | .obj kvs => .obj (jSetKey kvs key v)
  | other => other

/-- Skip JSON whitespace. -/
def skipWs (l : Chars) : Chars := l.dropWhile Char.isWhitespace

/-- Value of a hexadecimal digit, if any. -/
def hexVal (c : Char) : Option Nat :=
  if c.toNat ≥ 48 ∧ c.toNat ≤ 57 then some (c.toNat - 48)
  else if c.toNat ≥ 97 ∧ c.toNat ≤ 102 then some (c.toNat - 87)
  else if c.toNat ≥ 65 ∧ c.toNat ≤ 70 then some (c.toNat - 55)
  else none

/-- Body of a JSON string literal after the opening quote: returns the decoded
characters and the remaining input after the closing quote.  Escapes are the
standard JSON ones; raw control characters are rejected as in `json.loads`. -/
def parseStringBody : Chars → Option (Chars × Chars)
  | [] => none
  | c :: rest =>
    if c = '"' then some ([], rest)
    else if c = '\\' then
      match rest with
      | [] => none
      | e :: rest2 =>
        if e = '"' ∨ e = '\\' ∨ e = '/' then
          (parseStringBody rest2).map fun p => (e :: p.1, p.2)
        else if e = 'n' then (parseStringBody rest2).map fun p => ('\n' :: p.1, p.2)
        else if e = 't' then (parseStringBody rest2).map fun p => ('\t' :: p.1, p.2)
        else if e = 'r' then (parseStringBody rest2).map fun p => ('\r' :: p.1, p.2)
        else if e = 'b' then (parseStringBody rest2).map fun p => (Char.ofNat 8 :: p.1, p.2)
        else if e = 'f' then (parseStringBody rest2).map fun p => (Char.ofNat 12 :: p.1, p.2)
        else if e = 'u' then
          match rest2 with
          | h1 :: h2 :: h3 :: h4 :: rest3 =>
            match hexVal h1, hexVal h2, hexVal h3, hexVal h4 with
            | some a, some b, some c', some d =>
              (parseStringBody rest3).map fun p =>
                (Char.ofNat (((a * 16 + b) * 16 + c') * 16 + d) :: p.1, p.2)
            | _, _, _, _ => none
          | _ => none
        else none
    else if c.toNat < 32 then none
    else (parseStringBody rest).map fun p => (c :: p.1, p.2)

/-- Numeric value of a run of decimal digits. -/
def digitsVal (l : Chars) : Nat := l.foldl (fun a c => a * 10 + (c.toNat - 48)) 0

/-- Integer literal parser (JSON numbers are modelled without fraction or
exponent parts). -/
def parseNum (l : Chars) : Option (Json × Chars) :=
  match l with
  | [] => none
  | c :: rest =>
    if c = '-' then
      let ds := rest.takeWhile Char.isDigit
      if ds.isEmpty then none
      else some (.num (-(digitsVal ds : Int)), rest.dropWhile Char.isDigit)
    else
      let ds := l.takeWhile Char.isDigit
      if ds.isEmpty then none
      else some (.num (digitsVal ds), l.dropWhile Char.isDigit)

mutual

/-- Recursive-descent JSON value parser with explicit fuel (the fuel is an
upper bound on recursion depth; `parseJson` supplies enough for any input). -/
def parseVal : Nat → Chars → Option (Json × Chars)
  | 0, _ => none
  | fuel + 1, l =>
    match l with
    | [] => none
    | c :: rest =>
      if c = 'n' then
        match rest with
        | 'u' :: 'l' :: 'l' :: r => some (.null, r)
        | _ => none
      else if c = 't' then
        match rest with
        | 'r' :: 'u' :: 'e' :: r => some (.bool true, r)
        | _ => none
      else if c = 'f' then
        match rest with
        | 'a' :: 'l' :: 's' :: 'e' :: r => some (.bool false, r)
        | _ => none
      else if c = '"' then (parseStringBody rest).map fun p => (.str p.1, p.2)
      else if c = '[' then
        match skipWs rest with
        | ']' :: r2 => some (.arr [], r2)
        | r1 => (parseElems fuel r1).map fun p => (.arr p.1, p.2)
      else if c = '{' then
        match skipWs rest with
        | '}' :: r2 => some (.obj [], r2)
        | r1 => (parseMembers fuel [] r1).map fun p => (.obj p.1, p.2)
      else parseNum l

/-- Comma-separated array elements up to the closing bracket. -/
def parseElems : Nat → Chars → Option (List Json × Chars)
  | 0, _ => none
  | fuel + 1, l =>
    match parseVal fuel l with
    | none => none
    | some (v, r) =>
      match skipWs r with
      | ',' :: r2 =>
        match parseElems fuel (skipWs r2) with
        | some (vs, r3) => some (v :: vs, r3)
        | none => none
      | ']' :: r2 => some ([v], r2)
      | _ => none

/-- Comma-separated object members up to the closing brace, accumulated with
`jSetKey` so that duplicate keys behave as in a Python dict. -/
def parseMembers : Nat → List (Chars × Json) → Chars → Option (List (Chars × Json) × Chars)
  | 0, _, _ => none
  | fuel + 1, acc, l =>
    match l with
    | '"' :: rest =>
      match parseStringBody rest with
      | none => none
      | some (key, r1) =>
        match skipWs r1 with
        | ':' :: r2 =>
          match parseVal fuel (skipWs r2) with
          | none => none
          | some (v, r3) =>
            match skipWs r3 with
            | ',' :: r4 => parseMembers fuel (jSetKey acc key v) (skipWs r4)
            | '}' :: r4 => some (jSetKey acc key v, r4)
            | _ => none
        | _ => none
    | _ => none

end

/-- `json.loads`: parse one JSON value with optional surrounding whitespace;
any trailing non-whitespace is an error. -/
def parseJson (l : Chars) : Option Json :=
  match parseVal (l.length + 1) (skipWs l) with
  | some (v, r) => if skipWs r = [] then some v else none
  | none => none

/-- The ResponseExtractor: the strip / fence-split / tag-drop / strip / parse
sequence that the source duplicates at lines 186-194 (curriculum stage) and
266-273 (enrichment stage).  `none` is Python's `json.JSONDecodeError`.  The
`getD 1 []` is safe: the surrounding `startswith` guard guarantees the split
has at least two segments, so the Python indexing cannot raise. -/
def extract (raw : Chars) : Option Json :=
  let content := pyStrip raw
  let content2 :=
    if fenceMark.isPrefixOf content then
      let seg := (fenceSplit content).getD 1 []
      if langTag.isPrefixOf seg then seg.drop 4 else seg
    else content
  parseJson (pyStrip content2)

/-!
Data model: pipeline state, oracle inputs, sink records and events.
-/

/-- One upsert pushed to the streaming sink by `_stream_update` (the `data`
parameter is `None` at every call site in the source, so it is omitted). -/
structure SinkRecord where
  stage : Chars
  message : Chars
  progress : Nat
  timestamp : Nat

/-- The LangGraph state dict built in `generate` and threaded through the four
stages.  The unused `error` key of the initial state is omitted: no stage ever
reads or writes it. -/
structure PState where
  user_id : Option Chars
  topic : Option Chars
  background : Option Chars
  goal_level : Chars
  preferences : Json
  trace_id : Option Chars
  analysis : Option Chars
  curriculum_structure : Option Json
  enriched_modules : Option (List Json)
  final_path : Option Json
  progress : Nat
  current_stage : Chars

/-- External inputs of one run: the three LLM call results (`r3` indexed by
module position), and the clock.  A `Except.error` response models `ainvoke`
raising. -/
structure Oracle where
  r1 : Except Chars Chars
  r2 : Except Chars Chars
  r3 : Nat → Except Chars Chars
  now : Nat
  createdAt : Chars

/-- The inbound `learning.path.requested` event payload; `none` models an
absent key (`req.get` returns Python `None`). -/
structure Req where
  userId : Option Chars
  topic : Option Chars
  background : Option Chars
  goalLevel : Option Chars
  preferences : Option Json
  traceId : Option Chars

/-- The Motia context: which optional collaborators exist, and its traceId. -/
structure Ctx where
  hasStreams : Bool
  hasEmit : Bool
  traceId : Option Chars

/-- Process environment: whether `GROQ_API_KEY` is set. -/
structure Env where
  hasApiKey : Bool

/-- An outbound event passed to `emit`. -/
structure Event where
  topic : Chars
  data : Json

/-- Everything externally observable from one `handler` invocation: the sink
upserts in order, and the emitted events. -/
structure HandlerOut where
  sinkUpdates : List SinkRecord
  events : List Event

/-- Python f-string rendering of a value that may be `None`. -/
def pyShow (o : Option Chars) : Chars :=
  match o with
  | some t => t
  | none => "None".toList

/-- A possibly-`None` Python string as a JSON value. -/
def jsonOfOpt (o : Option Chars) : Json :=
  match o with
  | some t => .str t
  | none => .null

/-- Decimal rendering of a natural number (fuelled so it reduces). -/
def natStrGo : Nat → Nat → Chars
  | 0, _ => []
  | fuel + 1, n =>
    if n < 10 then [Nat.digitChar n]
    else natStrGo fuel (n / 10) ++ [Nat.digitChar (n % 10)]

/-- Decimal rendering of a natural number, as in a Python f-string. -/
def natStr (n : Nat) : Chars := natStrGo (n + 1) n

/-- `_stream_update`: upserts a record only when both a streaming sink and a
truthy trace id are configured (`if self.streams and self.trace_id`); the
log line is not modelled.  `gate` is that configuration bit. -/
def streamUpd (gate : Bool) (stage message : Chars) (progress now : Nat) : List SinkRecord :=
  if gate then [⟨stage, message, progress, now⟩] else []

/-!
The four stage functions.  Each returns the sink records it pushed (in order)
and either the updated state or the exception that escaped the stage.
-/

/-- Node 1, `_analyze_background` (lines 99-135): report 15%, call the model,
store the stripped response text, set progress 20 and stage `analyzing`.
A model-call failure propagates. -/
def analyzeBackground (gate : Bool) (o : Oracle) (s : PState) :
    List SinkRecord × Except Chars PState :=
  let u := streamUpd gate "analyzing".toList
    ("Analyzing your background for ".toList ++ pyShow s.topic ++ "...".toList) 15 o.now
  match o.r1 with
  | .error e => (u, .error e)
  | .ok content =>
    (u, .ok { s with analysis := some (pyStrip content), progress := 20,
                     current_stage := "analyzing".toList })

/-- The fallback curriculum built at lines 199-204 when the curriculum JSON
fails to parse. -/
def fallbackCurriculum (s : PState) : Json :=
  Json.obj [("title".toList, Json.str ("Learning Path: ".toList ++ pyShow s.topic)),
            ("description".toList, jsonOfOpt s.analysis),
            ("total_hours".toList, Json.num 30),
            ("modules".toList, Json.arr [])]

/-- Node 2, `_generate_curriculum` (lines 137-216): report 40%, call the
model, extract JSON; on `json.JSONDecodeError` substitute the fallback
curriculum instead of raising.  Sets progress 60 and stage `generating`. -/
def generateCurriculum (gate : Bool) (o : Oracle) (s : PState) :
    List SinkRecord × Except Chars PState :=
  let u := streamUpd gate "generating".toList
    ("Creating curriculum structure for ".toList ++ pyShow s.topic ++ "...".toList) 40 o.now
  match o.r2 with
  | .error e => (u, .error e)
  | .ok content =>
    let curriculum :=
      match extract content with
      | some j => j
      | none => fallbackCurriculum s
    (u, .ok { s with curriculum_structure := some curriculum, progress := 60,
                     current_stage := "generating".toList })

/-- Whether every element of a list is a JSON string. -/
def strList : List Json → Bool
  | [] => true
  | Json.str _ :: rest => strList rest
  | _ => false

/-- Whether building the enrichment prompt for a module succeeds.  The prompt
text itself is irrelevant (the model reply is an oracle input), but its
construction can raise: `module['title']` raises unless the module is a dict
with a `title` key, and `', '.join(module.get('key_concepts', []))` raises a
`TypeError` unless the value (when present) is an iterable of strings — a
list of strings, a string, or a dict (whose keys are strings). -/
def moduleOk (m : Json) : Bool :=
  match m with
  | Json.obj kvs =>
    (jLookup kvs "title".toList).isSome &&
    (match jLookup kvs "key_concepts".toList with
     | none => true
     | some (Json.arr xs) => strList xs
     | some (Json.str _) => true
     | some (Json.obj _) => true
     | some _ => false)
  | _ => false

/-- The `resources` value attached to a module from one enrichment response
(lines 265-276): `json.JSONDecodeError` is recovered with an empty list;
`resources_data.get('resources', [])` raises unless the parsed value is a
dict, and that `AttributeError` is not caught. -/
def resourcesOf (content : Chars) : Except Chars Json :=
  match extract content with
  | none => .ok (Json.arr [])
  | some (Json.obj kvs) => .ok ((jLookup kvs "resources".toList).getD (Json.arr []))
  | some _ => .error "AttributeError: object has no attribute get".toList

/-- The per-module loop of `_enrich_resources` (lines 231-286).  For the
module at position `idx` out of `n`: build the prompt (may raise), call the
model (`resps idx`, may raise), extract JSON; on `json.JSONDecodeError` set
`resources` to the empty list, on success read `resources_data.get`, which
raises unless the parsed value is a dict.  The mutated module is appended and
a progress record `75 + (idx+1)/n * 15` is pushed (the Python float
truncation `int(...)` is modelled as exact natural floor division, which
agrees on these small operands). -/
def enrichGo (gate : Bool) (n now : Nat) (resps : Nat → Except Chars Chars) (idx : Nat) :
    List Json → List SinkRecord × Except Chars (List Json)
  | [] => ([], .ok [])
  | m :: rest =>
    if moduleOk m then
      match resps idx with
      | .error e => ([], .error e)
      | .ok content =>
        match resourcesOf content with
        | .error e => ([], .error e)
        | .ok v =>
          let m2 := jSet m "resources".toList v
          let u := streamUpd gate "enriching".toList
            ("Enriched module ".toList ++ natStr (idx + 1) ++ "/".toList ++ natStr n)
            (75 + 15 * (idx + 1) / n) now
          let t := enrichGo gate n now resps (idx + 1) rest
          (u ++ t.1, t.2.map fun es => m2 :: es)
    else ([], .error "TypeError or KeyError while building the module prompt".toList)

/-- Node 3, `_enrich_resources` (lines 218-298): report 75%, loop over
`curriculum.get('modules', [])`.  Both `curriculum.get` calls raise unless
the curriculum is a dict, and `enumerate` raises unless `modules` is a list.
Because the loop mutates the very module dicts held inside
`curriculum_structure['modules']`, the value of `curriculum_structure`
changes too whenever the key is present (aliasing), which `jSet` reflects;
when the `modules` key is absent the default `[]` is iterated and the
curriculum value is untouched.  Sets progress 90 and stage `enriching`. -/
def enrichResources (gate : Bool) (o : Oracle) (s : PState) :
    List SinkRecord × Except Chars PState :=
  let u0 := streamUpd gate "enriching".toList
    "Finding the best learning resources...".toList 75 o.now
  match s.curriculum_structure with
  | none => (u0, .error "AttributeError: NoneType object has no attribute get".toList)
  | some cs =>
    match cs with
    | Json.obj kvs =>
      match jLookup kvs "modules".toList with
      | some (Json.arr ms) =>
        let t := enrichGo gate ms.length o.now o.r3 0 ms
        match t.2 with
        | .error e => (u0 ++ t.1, .error e)
        | .ok es =>
          (u0 ++ t.1, .ok { s with
            curriculum_structure := some (jSet cs "modules".toList (Json.arr es)),
            enriched_modules := some es, progress := 90,
            current_stage := "enriching".toList })
      | some _ => (u0, .error "TypeError: object is not iterable".toList)
      | none =>
        (u0, .ok { s with enriched_modules := some [], progress := 90,
                          current_stage := "enriching".toList })
    | _ => (u0, .error "AttributeError: object has no attribute get".toList)

/-- Node 4, `_finalize_path` (lines 300-333): report 100%, overwrite
`curriculum['modules']` with the enriched list (a `TypeError` unless the
curriculum is a dict; assigning adds the key when it was absent), assemble
the output record, set progress 100 and stage `completed`. -/
def finalizePath (gate : Bool) (o : Oracle) (s : PState) :
    List SinkRecord × Except Chars PState :=
  let u := streamUpd gate "completed".toList
    ("Your ".toList ++ pyShow s.topic ++ " learning path is ready! 🎉".toList) 100 o.now
  match s.curriculum_structure with
  | some (Json.obj kvs) =>
    let cs2 := Json.obj (jSetKey kvs "modules".toList
      (match s.enriched_modules with
       | some es => Json.arr es
       | none => Json.null))
    let fp := Json.obj [
      ("userId".toList, jsonOfOpt s.user_id),
      ("topic".toList, jsonOfOpt s.topic),
      ("background".toList, jsonOfOpt s.background),
      ("goalLevel".toList, Json.str s.goal_level),
      ("preferences".toList, s.preferences),
      ("analysis".toList, jsonOfOpt s.analysis),
      ("curriculum".toList, cs2),
      ("createdAt".toList, Json.str o.createdAt),
      ("traceId".toList, jsonOfOpt s.trace_id)]
    (u, .ok { s with curriculum_structure := some cs2, final_path := some fp,
                     progress := 100, current_stage := "completed".toList })
  | some _ => (u, .error "TypeError: object does not support item assignment".toList)
  | none => (u, .error "TypeError: NoneType object does not support item assignment".toList)

/-- The compiled LangGraph: the four stages in fixed order, short-circuiting
on the first exception, concatenating the sink records pushed so far. -/
def runPipeline (gate : Bool) (o : Oracle) (s0 : PState) :
    List SinkRecord × Except Chars PState :=
  let t1 := analyzeBackground gate o s0
  match t1.2 with
  | .error e => (t1.1, .error e)
  | .ok s1 =>
    let t2 := generateCurriculum gate o s1
    match t2.2 with
    | .error e => (t1.1 ++ t2.1, .error e)
    | .ok s2 =>
      let t3 := enrichResources gate o s2
      match t3.2 with
      | .error e => (t1.1 ++ t2.1 ++ t3.1, .error e)
      | .ok s3 =>
        let t4 := finalizePath gate o s3
        match t4.2 with
        | .error e => (t1.1 ++ t2.1 ++ t3.1 ++ t4.1, .error e)
        | .ok s4 => (t1.1 ++ t2.1 ++ t3.1 ++ t4.1, .ok s4)

/-- The initial state built by `generate` (lines 338-352). -/
def initState (req : Req) : PState :=
  { user_id := req.userId, topic := req.topic, background := req.background,
    goal_level := req.goalLevel.getD "intermediate".toList,
    preferences := req.preferences.getD (Json.obj []),
    trace_id := req.traceId,
    analysis := none, curriculum_structure := none, enriched_modules := none,
    final_path := none, progress := 0, current_stage := "analyzing".toList }

/-- The trace id used by the handler: `req.get('traceId') or ctx.traceId`
(Python `or` falls through on `None` and on the empty string). -/
def handlerTrace (req : Req) (ctx : Ctx) : Option Chars :=
  match req.traceId with
  | some t => if t.isEmpty then ctx.traceId else some t
  | none => ctx.traceId

/-- Whether sink upserts happen: `streams and trace_id` (both the generator's
`_stream_update` guard and the handler's error-path guard). -/
def handlerGate (req : Req) (ctx : Ctx) : Bool :=
  ctx.hasStreams &&
    (match handlerTrace req ctx with
     | some t => !t.isEmpty
     | none => false)

/-- The handler's `except` path (lines 423-451): upsert an error record when
a sink and a truthy trace id exist, then emit `learning.path.failed` when an
emitter exists.  `pipelineUpds` are the sink records already pushed before
the exception. -/
def failureOut (req : Req) (ctx : Ctx) (o : Oracle) (pipelineUpds : List SinkRecord)
    (e : Chars) : HandlerOut :=
  { sinkUpdates := pipelineUpds ++
      (if handlerGate req ctx then
        [⟨"error".toList, "Failed to generate learning path: ".toList ++ e, 0, o.now⟩]
       else []),
    events :=
      if ctx.hasEmit then
        [⟨"learning.path.failed".toList, Json.obj [
          ("userId".toList, jsonOfOpt req.userId),
          ("topic".toList, jsonOfOpt req.topic),
          ("error".toList, Json.str e),
          ("traceId".toList, jsonOfOpt (handlerTrace req ctx))]⟩]
      else [] }

/-- The module-level `handler` (lines 360-451).  The generator is constructed
inside the `try` block, so a missing `GROQ_API_KEY` raises there and is
caught like any pipeline failure.  On success it emits
`learning.path.generated`; on any exception it produces `failureOut`.  The
function is total: no exception escapes the handler. -/
def handler (req : Req) (ctx : Ctx) (env : Env) (o : Oracle) : HandlerOut :=
  if env.hasApiKey then
    let t := runPipeline (handlerGate req ctx) o (initState req)
    match t.2 with
    | .ok s4 =>
      { sinkUpdates := t.1,
        events :=
          if ctx.hasEmit then
            [⟨"learning.path.generated".toList, Json.obj [
              ("userId".toList, jsonOfOpt req.userId),
              ("topic".toList, jsonOfOpt req.topic),
              ("learningPath".toList, s4.final_path.getD Json.null),
              ("traceId".toList, jsonOfOpt (handlerTrace req ctx)),
              ("completedAt".toList, Json.num o.now)]⟩]
          else [] }
    | .error e => failureOut req ctx o t.1 e
  else failureOut req ctx o [] "GROQ_API_KEY environment variable not set".toList

/-!
Concrete fixtures used by witnesses and counterexamples below: a request, a
context, an oracle whose three responses make the whole pipeline succeed with
one module, and the intermediate states of that run.
-/

/-- Fixture request. -/
def req0 : Req :=
  { userId := some "u1".toList, topic := some "T".toList, background := some "B".toList,
    goalLevel := none, preferences := none, traceId := some "t1".toList }

/-- Fixture context with a sink and an emitter. -/
def ctx0 : Ctx := { hasStreams := true, hasEmit := true, traceId := none }

/-- Fixture oracle for a fully successful run. -/
def o0 : Oracle :=
  { r1 := .ok "A".toList, r2 := .ok "\x7b\"modules\": [\x7b\"title\": \"M\"\x7d]\x7d".toList,
    r3 := fun _ => .ok "\x7b\"resources\": []\x7d".toList, now := 5, createdAt := "D".toList }

/-- Fixture oracle whose curriculum response is not JSON. -/
def oBad2 : Oracle := { o0 with r2 := .ok "not json".toList }

/-- Fixture oracle whose first model call raises. -/
def oFail1 : Oracle := { o0 with r1 := .error "boom".toList }

/-- Fixture module as parsed from the curriculum response. -/
def mW : Json := Json.obj [("title".toList, Json.str "M".toList)]

/-- Fixture module after enrichment attached its (empty) resources. -/
def m2W : Json :=
  Json.obj [("title".toList, Json.str "M".toList), ("resources".toList, Json.arr [])]

/-- Fixture curriculum as parsed from the curriculum response. -/
def csW : Json := Json.obj [("modules".toList, Json.arr [mW])]

/-- Fixture curriculum after the enrichment loop mutated its module dicts. -/
def csW2 : Json := Json.obj [("modules".toList, Json.arr [m2W])]

/-- Fixture state after stage 1. -/
def sW1 : PState :=
  { initState req0 with analysis := some "A".toList, progress := 20,
                        current_stage := "analyzing".toList }

/-- Fixture state after stage 2. -/
def sW2 : PState :=
  { sW1 with curriculum_structure := some csW, progress := 60,
             current_stage := "generating".toList }

/-- Fixture state after stage 3. -/
def sW3 : PState :=
  { sW2 with curriculum_structure := some csW2, enriched_modules := some [m2W],
             progress := 90, current_stage := "enriching".toList }

/-- Fixture final-path record of the successful run. -/
def fpW : Json := Json.obj [
  ("userId".toList, Json.str "u1".toList),
  ("topic".toList, Json.str "T".toList),
  ("background".toList, Json.str "B".toList),
  ("goalLevel".toList, Json.str "intermediate".toList),
  ("preferences".toList, Json.obj []),
  ("analysis".toList, Json.str "A".toList),
  ("curriculum".toList, csW2),
  ("createdAt".toList, Json.str "D".toList),
  ("traceId".toList, Json.str "t1".toList)]

/-- Fixture state after stage 4. -/
def sW4 : PState :=
  { sW3 with curriculum_structure := some csW2, final_path := some fpW,
             progress := 100, current_stage := "completed".toList }

/-- Fixture state whose curriculum has an empty `modules` list (the shape the
stage-2 fallback produces). -/
def sEmptyMods : PState :=
  { sW1 with curriculum_structure := some (Json.obj [("modules".toList, Json.arr [])]),
             progress := 60, current_stage := "generating".toList }

/-!
Claim theorems.
-/

/-- C1: in the curriculum-generation stage, for every model response whose
text fails JSON extraction, the stage does not propagate the error: it
substitutes the fallback curriculum (title `"Learning Path: " + topic`,
description `analysis`, total_hours 30, empty modules) into
`curriculumStructure` and returns normally so the pipeline continues, with
progress 60 and current stage `generating`. -/
theorem curriculum_fallback_on_bad_json (gate : Bool) (o : Oracle) (s : PState)
    (content : Chars) (hr : o.r2 = .ok content) (hx : extract content = none) :
    generateCurriculum gate o s =
      (streamUpd gate "generating".toList
        ("Creating curriculum structure for ".toList ++ pyShow s.topic ++ "...".toList)
        40 o.now,
       .ok { s with curriculum_structure := some (fallbackCurriculum s), progress := 60,
                    current_stage := "generating".toList }) := by
  simp only [generateCurriculum, hr, hx]

/-- Witness for C1 at a concrete malformed response. -/
theorem curriculum_fallback_on_bad_json_witness :
    oBad2.r2 = .ok "not json".toList ∧ extract "not json".toList = none ∧
    generateCurriculum true oBad2 sW1 =
      ([⟨"generating".toList, "Creating curriculum structure for T...".toList, 40, 5⟩],
       .ok { sW1 with curriculum_structure := some (fallbackCurriculum sW1), progress := 60,
                      current_stage := "generating".toList }) :=
  ⟨rfl, rfl, curriculum_fallback_on_bad_json true oBad2 sW1 "not json".toList rfl rfl⟩

/-- C2: in the enrichment loop, a module whose response fails JSON extraction
gets `resources := []` and the loop moves on to the next module with the
remaining processing unchanged; the failure itself never turns the result
into an error. -/
theorem enrich_bad_json_empty_resources (gate : Bool) (n now idx : Nat)
    (resps : Nat → Except Chars Chars) (m : Json) (rest : List Json) (content : Chars)
    (hm : moduleOk m = true) (hr : resps idx = .ok content)
    (hx : extract content = none) :
    enrichGo gate n now resps idx (m :: rest) =
      (streamUpd gate "enriching".toList
          ("Enriched module ".toList ++ natStr (idx + 1) ++ "/".toList ++ natStr n)
          (75 + 15 * (idx + 1) / n) now ++ (enrichGo gate n now resps (idx + 1) rest).1,
       (enrichGo gate n now resps (idx + 1) rest).2.map
         fun es => jSet m "resources".toList (Json.arr []) :: es) := by
  simp only [enrichGo, hm, if_true, hr, resourcesOf, hx]

/-- Witness for C2 at a concrete malformed enrichment response. -/
theorem enrich_bad_json_empty_resources_witness :
    moduleOk mW = true ∧ extract "oops".toList = none ∧
    enrichGo true 1 5 (fun _ => .ok "oops".toList) 0 [mW] =
      ([⟨"enriching".toList, "Enriched module 1/1".toList, 90, 5⟩], .ok [m2W]) :=
  ⟨rfl, rfl, enrich_bad_json_empty_resources true 1 5 0 (fun _ => .ok "oops".toList)
    mW [] "oops".toList rfl rfl rfl⟩

/-- C10: in the enrichment loop, a module whose response parses as a JSON
object without a `resources` key gets `resources := []` — the same outcome
as a parse failure — and the loop moves on to the next module. -/
theorem enrich_missing_resources_key (gate : Bool) (n now idx : Nat)
    (resps : Nat → Except Chars Chars) (m : Json) (rest : List Json) (content : Chars)
    (kvs : List (Chars × Json)) (hm : moduleOk m = true) (hr : resps idx = .ok content)
    (hx : extract content = some (Json.obj kvs))
    (hlk : jLookup kvs "resources".toList = none) :
    enrichGo gate n now resps idx (m :: rest) =
      (streamUpd gate "enriching".toList
          ("Enriched module ".toList ++ natStr (idx + 1) ++ "/".toList ++ natStr n)
          (75 + 15 * (idx + 1) / n) now ++ (enrichGo gate n now resps (idx + 1) rest).1,
       (enrichGo gate n now resps (idx + 1) rest).2.map
         fun es => jSet m "resources".toList (Json.arr []) :: es) := by
  simp only [enrichGo, hm, if_true, hr, resourcesOf, hx, hlk, Option.getD_none]

/-- Witness for C10 at a concrete response that is valid JSON but has no
`resources` key. -/
theorem enrich_missing_resources_key_witness :
    moduleOk mW = true ∧ extract "\x7b\"a\": 1\x7d".toList =
      some (Json.obj [("a".toList, Json.num 1)]) ∧
    jLookup [("a".toList, Json.num 1)] "resources".toList = none ∧
    enrichGo true 1 5 (fun _ => .ok "\x7b\"a\": 1\x7d".toList) 0 [mW] =
      ([⟨"enriching".toList, "Enriched module 1/1".toList, 90, 5⟩], .ok [m2W]) :=
  ⟨rfl, rfl, rfl, enrich_missing_resources_key true 1 5 0 (fun _ => .ok "\x7b\"a\": 1\x7d".toList)
    mW [] "\x7b\"a\": 1\x7d".toList [("a".toList, Json.num 1)] rfl rfl rfl rfl⟩

/-- C8 (amended): the progress-interpolation formula does divide by the
module count, but it sits inside the per-module loop, so with an empty
`curriculumStructure.modules` list the loop body never executes: no division
is evaluated, the stage completes normally with `enrichedModules = []`,
progress 90 and only the single 75% sink record. -/
theorem enrich_empty_modules_completes (gate : Bool) (o : Oracle) (s : PState)
    (kvs : List (Chars × Json))
    (hcs : s.curriculum_structure = some (Json.obj kvs))
    (hms : jLookup kvs "modules".toList = some (Json.arr [])) :
    enrichResources gate o s =
      (streamUpd gate "enriching".toList
        "Finding the best learning resources...".toList 75 o.now,
       .ok { s with
         curriculum_structure := some (jSet (Json.obj kvs) "modules".toList (Json.arr [])),
         enriched_modules := some ([] : List Json), progress := 90,
         current_stage := "enriching".toList }) := by
  simp only [enrichResources, hcs, hms, enrichGo, List.append_nil]

/-- Witness for the amended C8 at the concrete fallback-shaped state. -/
theorem enrich_empty_modules_completes_witness :
    sEmptyMods.curriculum_structure = some (Json.obj [("modules".toList, Json.arr [])]) ∧
    jLookup [("modules".toList, Json.arr [])] "modules".toList = some (Json.arr []) ∧
    enrichResources true o0 sEmptyMods =
      ([⟨"enriching".toList, "Finding the best learning resources...".toList, 75, 5⟩],
       .ok { sEmptyMods with
         curriculum_structure := some (Json.obj [("modules".toList, Json.arr [])]),
         enriched_modules := some ([] : List Json), progress := 90,
         current_stage := "enriching".toList }) :=
  ⟨rfl, rfl, enrich_empty_modules_completes true o0 sEmptyMods
    [("modules".toList, Json.arr [])] rfl rfl⟩

/-- Counterexample for C8 as stated: running the enrichment stage on a state
whose `modules` list is empty raises nothing — it returns successfully and
pushes no per-module progress record at all (one record, the 75% one), so no
division by zero is ever reached in the source. -/
theorem enrich_empty_modules_cex :
    (enrichResources true o0 sEmptyMods).2 =
      .ok { sEmptyMods with
        curriculum_structure := some (Json.obj [("modules".toList, Json.arr [])]),
        enriched_modules := some ([] : List Json), progress := 90,
        current_stage := "enriching".toList } ∧
    (enrichResources true o0 sEmptyMods).1.map SinkRecord.progress = [75] :=
  ⟨rfl, rfl⟩

/-- C9 (amended): a missing `GROQ_API_KEY` raises a `ValueError` at generator
construction, but the generator is constructed per request inside the
handler's `try` block, so the error prevents only that request's pipeline run
(no pipeline sink record is pushed) and is converted into the per-request
failure path: an error upsert when a sink and truthy trace id exist, and a
`learning.path.failed` event when an emitter exists. -/
theorem missing_key_is_per_request_failure (req : Req) (ctx : Ctx) (o : Oracle) :
    handler req ctx { hasApiKey := false } o =
      { sinkUpdates :=
          if handlerGate req ctx then
            [⟨"error".toList,
              "Failed to generate learning path: GROQ_API_KEY environment variable not set".toList,
              0, o.now⟩]
          else [],
        events :=
          if ctx.hasEmit then
            [⟨"learning.path.failed".toList, Json.obj [
              ("userId".toList, jsonOfOpt req.userId),
              ("topic".toList, jsonOfOpt req.topic),
              ("error".toList, Json.str "GROQ_API_KEY environment variable not set".toList),
              ("traceId".toList, jsonOfOpt (handlerTrace req ctx))]⟩]
          else [] } := rfl

/-- Counterexample for C9 as stated: at a concrete request the missing
credential is converted into a per-request `learning.path.failed` event and
an error upsert, rather than preventing request handling outright. -/
theorem missing_key_cex :
    (handler req0 ctx0 { hasApiKey := false } o0).events =
      [⟨"learning.path.failed".toList, Json.obj [
        ("userId".toList, Json.str "u1".toList),
        ("topic".toList, Json.str "T".toList),
        ("error".toList, Json.str "GROQ_API_KEY environment variable not set".toList),
        ("traceId".toList, Json.str "t1".toList)]⟩] ∧
    (handler req0 ctx0 { hasApiKey := false } o0).sinkUpdates =
      [⟨"error".toList,
        "Failed to generate learning path: GROQ_API_KEY environment variable not set".toList,
        0, 5⟩] :=
  ⟨rfl, rfl⟩

/-- Helper: a successful enrichment loop returns exactly one output module per
input module, in the same positions, each obtained from the input module at
that position by attaching some `resources` value. -/
theorem enrichGo_ok_pointwise (gate : Bool) (n now : Nat)
    (resps : Nat → Except Chars Chars) :
    ∀ (ms : List Json) (idx : Nat) (es : List Json),
      (enrichGo gate n now resps idx ms).2 = .ok es →
      es.length = ms.length ∧
      ∀ i (hi : i < es.length) (hm : i < ms.length),
        ∃ rv, es.get ⟨i, hi⟩ = jSet (ms.get ⟨i, hm⟩) "resources".toList rv := by
  intro ms
  induction ms with
  | nil =>
    intro idx es h
    simp only [enrichGo, Except.ok.injEq] at h
    subst h
    exact ⟨rfl, fun i hi _ => absurd hi (by simp)⟩
  | cons m rest ih =>
    intro idx es h
    cases hmo : moduleOk m with
    | false => simp [enrichGo, hmo] at h
    | true =>
      cases hr : resps idx with
      | error e => simp [enrichGo, hmo, hr] at h
      | ok content =>
        cases hrv : resourcesOf content with
        | error e => simp [enrichGo, hmo, hr, hrv] at h
        | ok v =>
          cases ht : (enrichGo gate n now resps (idx + 1) rest).2 with
          | error e => simp [enrichGo, hmo, hr, hrv, ht, Except.map] at h
          | ok es' =>
            simp only [enrichGo, hmo, if_true] at h
            rw [hr] at h
            simp only [] at h
            rw [hrv, ht] at h
            simp only [Except.map, Except.ok.injEq] at h
            subst h
            obtain ⟨hlen, hpt⟩ := ih (idx + 1) es' ht
            refine ⟨by simp [hlen], ?_⟩
            intro i hi hm'
            cases i with
            | zero => exact ⟨v, rfl⟩
            | succ i' =>
              have hi' : i' < es'.length := by simpa using hi
              have hm'' : i' < rest.length := by simpa using hm'
              obtain ⟨rv, hrv'⟩ := hpt i' hi' hm''
              exact ⟨rv, by simpa using hrv'⟩

/-- C6: for a non-empty curriculum module list, the enrichment stage is
order-preserving: the enriched list has the same length as
`curriculumStructure.modules`, and the module at each position is the input
module at that position with some `resources` value attached. -/
theorem enrich_order_preserving (gate : Bool) (o : Oracle) (s s' : PState)
    (us : List SinkRecord) (kvs : List (Chars × Json)) (ms : List Json)
    (hcs : s.curriculum_structure = some (Json.obj kvs))
    (hms : jLookup kvs "modules".toList = some (Json.arr ms)) (hne : ms ≠ [])
    (hrun : enrichResources gate o s = (us, .ok s')) :
    ∃ es, s'.enriched_modules = some es ∧ es.length = ms.length ∧
      ∀ i (hi : i < es.length) (hm : i < ms.length),
        ∃ rv, es.get ⟨i, hi⟩ = jSet (ms.get ⟨i, hm⟩) "resources".toList rv := by
  simp only [enrichResources, hcs, hms] at hrun
  cases ht : (enrichGo gate ms.length o.now o.r3 0 ms).2 with
  | error e => rw [ht] at hrun; simp at hrun
  | ok es =>
    rw [ht] at hrun
    simp only [Prod.mk.injEq, Except.ok.injEq] at hrun
    obtain ⟨-, hrun⟩ := hrun
    subst hrun
    exact ⟨es, rfl, enrichGo_ok_pointwise gate ms.length o.now o.r3 ms 0 es ht⟩

/-- Witness for C6 at the concrete one-module run. -/
theorem enrich_order_preserving_witness :
    sW2.curriculum_structure = some (Json.obj [("modules".toList, Json.arr [mW])]) ∧
    ([mW] : List Json) ≠ [] ∧
    enrichResources true o0 sW2 =
      ([⟨"enriching".toList, "Finding the best learning resources...".toList, 75, 5⟩,
        ⟨"enriching".toList, "Enriched module 1/1".toList, 90, 5⟩], .ok sW3) ∧
    (∃ es, sW3.enriched_modules = some es ∧ es.length = ([mW] : List Json).length ∧
      ∀ i (hi : i < es.length) (hm : i < ([mW] : List Json).length),
        ∃ rv, es.get ⟨i, hi⟩ = jSet (([mW] : List Json).get ⟨i, hm⟩) "resources".toList rv) :=
  ⟨rfl, by simp, rfl,
   enrich_order_preserving true o0 sW2 sW3 _ [("modules".toList, Json.arr [mW])] [mW]
     rfl rfl (by simp) rfl⟩

/-- C3: for every failure raised out of the pipeline, the handler (a)
upserts, when a sink and a truthy trace id exist, a terminal error record
with stage `error`, the failure message, progress 0 and a timestamp, after
the records the pipeline already pushed; and (b) emits, when an emitter
exists, one `learning.path.failed` event carrying userId, topic, the error
message and the trace id.  The handler itself is a total function: it never
raises (every pipeline exception is consumed by this path). -/
theorem handler_failure_boundary (req : Req) (ctx : Ctx) (o : Oracle)
    (us : List SinkRecord) (e : Chars)
    (hrun : runPipeline (handlerGate req ctx) o (initState req) = (us, .error e)) :
    ((handlerGate req ctx = true →
      (handler req ctx { hasApiKey := true } o).sinkUpdates =
        us ++ [⟨"error".toList, "Failed to generate learning path: ".toList ++ e, 0, o.now⟩]) ∧
     (ctx.hasEmit = true →
      (handler req ctx { hasApiKey := true } o).events =
        [⟨"learning.path.failed".toList, Json.obj [
          ("userId".toList, jsonOfOpt req.userId),
          ("topic".toList, jsonOfOpt req.topic),
          ("error".toList, Json.str e),
          ("traceId".toList, jsonOfOpt (handlerTrace req ctx))]⟩])) := by
  constructor
  · intro hc
    rw [hc] at hrun
    simp [handler, hrun, failureOut, hc]
  · intro hc
    simp [handler, hrun, failureOut, hc]

/-- Witness for C3 at a concrete run whose first model call raises. -/
theorem handler_failure_boundary_witness :
    runPipeline (handlerGate req0 ctx0) oFail1 (initState req0) =
      ([⟨"analyzing".toList, "Analyzing your background for T...".toList, 15, 5⟩],
       .error "boom".toList) ∧
    handlerGate req0 ctx0 = true ∧ ctx0.hasEmit = true ∧
    (handler req0 ctx0 { hasApiKey := true } oFail1).sinkUpdates =
      [⟨"analyzing".toList, "Analyzing your background for T...".toList, 15, 5⟩] ++
        [⟨"error".toList, "Failed to generate learning path: boom".toList, 0, 5⟩] ∧
    (handler req0 ctx0 { hasApiKey := true } oFail1).events =
      [⟨"learning.path.failed".toList, Json.obj [
        ("userId".toList, Json.str "u1".toList),
        ("topic".toList, Json.str "T".toList),
        ("error".toList, Json.str "boom".toList),
        ("traceId".toList, Json.str "t1".toList)]⟩] :=
  ⟨rfl, rfl, rfl,
   (handler_failure_boundary req0 ctx0 oFail1
      [⟨"analyzing".toList, "Analyzing your background for T...".toList, 15, 5⟩]
      "boom".toList rfl).1 rfl,
   (handler_failure_boundary req0 ctx0 oFail1
      [⟨"analyzing".toList, "Analyzing your background for T...".toList, 15, 5⟩]
      "boom".toList rfl).2 rfl⟩

/-!
Lemmas about stripping, fence splitting and fence occurrence, leading to the
round-trip property of `extract` on fence-wrapped JSON.
-/

/-- Dropping while a predicate holds skips a prefix on which it holds
everywhere. -/
theorem dropWhile_append_of_all {p : Char → Bool} :
    ∀ (w l : Chars), (∀ c ∈ w, p c = true) → (w ++ l).dropWhile p = l.dropWhile p
  | [], _, _ => rfl
  | c :: w, l, h => by
    have hc : p c = true := h c (List.mem_cons_self c w)
    simp only [List.cons_append, List.dropWhile_cons, hc, if_true]
    exact dropWhile_append_of_all w l fun d hd => h d (List.mem_cons_of_mem c hd)

/-- The whitespace strip of a text delimited by backticks and surrounded by
whitespace is the delimited core. -/
theorem pyStrip_delimited (w1 w2 mid : Chars)
    (h1 : ∀ c ∈ w1, c.isWhitespace = true) (h2 : ∀ c ∈ w2, c.isWhitespace = true) :
    pyStrip (w1 ++ (btick :: (mid ++ [btick])) ++ w2) = btick :: (mid ++ [btick]) := by
  have hb : btick.isWhitespace = false := by decide
  unfold pyStrip stripLeft stripRight
  rw [show w1 ++ (btick :: (mid ++ [btick])) ++ w2 =
        w1 ++ (btick :: (mid ++ ([btick] ++ w2))) from by simp]
  rw [dropWhile_append_of_all w1 _ h1]
  rw [List.dropWhile_cons_of_neg (by simp [hb])]
  rw [show (btick :: (mid ++ ([btick] ++ w2))).reverse =
        w2.reverse ++ (btick :: (mid.reverse ++ [btick])) from by simp]
  rw [dropWhile_append_of_all w2.reverse _ (fun c hc => h2 c (List.mem_reverse.mp hc))]
  rw [List.dropWhile_cons_of_neg (by simp [hb])]
  simp

/-- The fence marker is a prefix of a three-or-longer text exactly when its
first three characters are backticks. -/
theorem fenceMark_isPrefixOf_cons (c d e : Char) (r : Chars) :
    fenceMark.isPrefixOf (c :: d :: e :: r) = true ↔
      (c = btick ∧ d = btick ∧ e = btick) := by
  show (btick == c && (btick == d && (btick == e && List.isPrefixOf [] r))) = true ↔ _
  simp only [List.isPrefixOf, Bool.and_eq_true, beq_iff_eq]
  constructor
  · rintro ⟨hc, hd, he, -⟩
    exact ⟨hc.symm, hd.symm, he.symm⟩
  · rintro ⟨hc, hd, he⟩
    exact ⟨hc.symm, hd.symm, he.symm, trivial⟩

/-- Every list is a prefix of itself extended on the right. -/
theorem isPrefixOf_append_self : ∀ (p r : Chars), p.isPrefixOf (p ++ r) = true
  | [], _ => by simp [List.isPrefixOf]
  | c :: p, r => by simp [List.isPrefixOf, isPrefixOf_append_self p r]

/-- Splitting at an immediate fence emits the accumulated segment. -/
theorem fenceSplitGo_fence (acc rest : Chars) :
    fenceSplitGo acc (btick :: btick :: btick :: rest) = acc :: fenceSplitGo [] rest := by
  simp [fenceSplitGo]

/-- Prepending a non-backtick character does not change fence occurrence. -/
theorem hasFence_cons_of_ne (c : Char) (l : Chars) (hc : ¬c = btick) :
    hasFence (c :: l) = hasFence l := by
  match l with
  | [] => simp [hasFence]
  | [d] => simp [hasFence]
  | d :: e :: r => simp [hasFence, hc]

/-- Prepending preserves fence occurrence. -/
theorem hasFence_cons_true (c : Char) (l : Chars) (h : hasFence l = true) :
    hasFence (c :: l) = true := by
  match l with
  | [] => simp [hasFence] at h
  | [d] => simp [hasFence] at h
  | d :: e :: r =>
    rw [hasFence, h]
    simp

/-- Extending on the right preserves fence occurrence. -/
theorem hasFence_append_r : ∀ (t b : Chars), hasFence t = true → hasFence (t ++ b) = true := by
  intro t
  induction t with
  | nil => intro b h; simp [hasFence] at h
  | cons c t' ih =>
    intro b h
    cases t' with
    | nil => simp [hasFence] at h
    | cons d t'' =>
      cases t'' with
      | nil => simp [hasFence] at h
      | cons e r =>
        rw [hasFence] at h
        rw [show (c :: d :: e :: r) ++ b = c :: d :: e :: (r ++ b) from rfl, hasFence]
        rcases Bool.or_eq_true_iff.mp h with h1 | h2
        · rw [h1]; simp
        · have h3 := ih b h2
          rw [show (d :: e :: r) ++ b = d :: e :: (r ++ b) from rfl] at h3
          rw [h3]; simp

/-- Extending on the left preserves fence occurrence. -/
theorem hasFence_append_l : ∀ (a t : Chars), hasFence t = true → hasFence (a ++ t) = true := by
  intro a
  induction a with
  | nil => intro t h; simpa using h
  | cons c a' ih => intro t h; exact hasFence_cons_true c (a' ++ t) (ih t h)

/-- A text starting with the fence marker contains a fence. -/
theorem hasFence_of_fence_isPrefixOf (l : Chars) (h : fenceMark.isPrefixOf l = true) :
    hasFence l = true := by
  match l with
  | [] => simp [fenceMark, List.isPrefixOf] at h
  | [c] => simp [fenceMark, List.isPrefixOf] at h
  | [c, d] => simp [fenceMark, List.isPrefixOf] at h
  | c :: d :: e :: r =>
    obtain ⟨hc, hd, he⟩ := (fenceMark_isPrefixOf_cons c d e r).mp h
    subst hc; subst hd; subst he
    simp [hasFence]

/-- Splitting `m ++ fence` when `m ++ two backticks` is fence-free yields the
segment `m` followed by one empty segment (the Python
`(m + sep).split(sep) == [m, '']`). -/
theorem fenceSplitGo_clean : ∀ (m acc : Chars),
    hasFence (m ++ [btick, btick]) = false →
    fenceSplitGo acc (m ++ fenceMark) = [acc ++ m, []] := by
  intro m
  induction m with
  | nil =>
    intro acc _
    rw [show ([] : Chars) ++ fenceMark = btick :: btick :: btick :: [] from rfl,
        fenceSplitGo_fence]
    simp [fenceSplitGo]
  | cons c m' ih =>
    intro acc h
    cases m' with
    | nil =>
      have hc : ¬c = btick := by
        intro hc; subst hc; simp [hasFence] at h
      rw [show (c :: ([] : Chars)) ++ fenceMark = c :: btick :: btick :: [btick] from rfl]
      rw [fenceSplitGo, if_neg (by rintro ⟨hc', -, -⟩; exact hc hc')]
      have := ih (acc ++ [c]) (by simp [hasFence])
      rw [show ([] : Chars) ++ fenceMark = btick :: btick :: [btick] from rfl] at this
      rw [this]
      simp
    | cons d m'' =>
      cases m'' with
      | nil =>
        have hcd : ¬(c = btick ∧ d = btick) := by
          rintro ⟨hc, hd⟩; subst hc; subst hd; simp [hasFence] at h
        have hd : ¬d = btick := by
          intro hd; subst hd; simp [hasFence] at h
        rw [show (c :: [d]) ++ fenceMark = c :: d :: btick :: (btick :: [btick]) from rfl]
        rw [fenceSplitGo, if_neg (by rintro ⟨hc', hd', -⟩; exact hcd ⟨hc', hd'⟩)]
        have := ih (acc ++ [c]) (by simp [hasFence, hd])
        rw [show ([d] : Chars) ++ fenceMark = d :: btick :: btick :: [btick] from rfl] at this
        rw [this]
        simp
      | cons e r =>
        have hcde : ¬(c = btick ∧ d = btick ∧ e = btick) := by
          rintro ⟨hc, hd, he⟩; subst hc; subst hd; subst he
          rw [show (btick :: btick :: btick :: r) ++ [btick, btick] =
                btick :: btick :: btick :: (r ++ [btick, btick]) from rfl] at h
          simp [hasFence] at h
        have htail : hasFence ((d :: e :: r) ++ [btick, btick]) = false := by
          rw [show (c :: d :: e :: r) ++ [btick, btick] =
                c :: d :: e :: (r ++ [btick, btick]) from rfl, hasFence] at h
          rcases Bool.or_eq_false_iff.mp h with ⟨-, h2⟩
          exact h2
        rw [show (c :: d :: e :: r) ++ fenceMark = c :: d :: e :: (r ++ fenceMark) from rfl]
        rw [fenceSplitGo, if_neg hcde]
        have := ih (acc ++ [c]) htail
        rw [show (d :: e :: r) ++ fenceMark = d :: e :: (r ++ fenceMark) from rfl] at this
        rw [this]
        simp

/-- Dropping-while is idempotent. -/
theorem dropWhile_idem (p : Char → Bool) (l : Chars) :
    (l.dropWhile p).dropWhile p = l.dropWhile p := by
  induction l with
  | nil => rfl
  | cons c l' ih =>
    by_cases hc : p c = true
    · simp [List.dropWhile_cons, hc, ih]
    · simp [List.dropWhile_cons, hc]

/-- Right strip is idempotent. -/
theorem stripRight_idem (l : Chars) : stripRight (stripRight l) = stripRight l := by
  unfold stripRight
  rw [List.reverse_reverse, dropWhile_idem]

/-- The right strip of a list is one of its prefixes. -/
theorem stripRight_prefix (l : Chars) : ∃ b, l = stripRight l ++ b := by
  obtain ⟨t, ht⟩ := List.dropWhile_suffix (l := l.reverse) Char.isWhitespace
  refine ⟨t.reverse, ?_⟩
  unfold stripRight
  rw [← List.reverse_append, ht, List.reverse_reverse]

/-- A self-stable dropWhile has a head the predicate rejects. -/
theorem dropWhile_self_head (p : Char → Bool) (c : Char) (l : Chars)
    (h : (c :: l).dropWhile p = c :: l) : p c = false := by
  by_contra hc
  have hc' : p c = true := by revert hc; cases p c <;> simp
  rw [List.dropWhile_cons_of_pos hc'] at h
  have hle := (List.dropWhile_suffix (l := l) p).length_le
  have := congrArg List.length h
  simp at this
  omega

/-- Left strip after a left-then-right strip does nothing. -/
theorem stripLeft_stripRight_stripLeft (l : Chars) :
    stripLeft (stripRight (stripLeft l)) = stripRight (stripLeft l) := by
  cases hy : stripLeft l with
  | nil => simp [stripRight, stripLeft]
  | cons c y' =>
    have hc : Char.isWhitespace c = false := by
      apply dropWhile_self_head Char.isWhitespace c y'
      rw [← hy]
      exact dropWhile_idem Char.isWhitespace l
    obtain ⟨b, hb⟩ := stripRight_prefix (c :: y')
    cases hz : stripRight (c :: y') with
    | nil => simp [stripLeft]
    | cons d z' =>
      have hd : d = c := by
        rw [hz] at hb
        exact (List.cons.injEq .. ▸ hb).1.symm
      subst hd
      simp [stripLeft, List.dropWhile_cons, hc]

/-- Python strip is idempotent. -/
theorem pyStrip_idem (l : Chars) : pyStrip (pyStrip l) = pyStrip l := by
  unfold pyStrip
  rw [stripLeft_stripRight_stripLeft, stripRight_idem]

/-- The strip of a text is surrounded by the rest of the text. -/
theorem pyStrip_decomp (l : Chars) : ∃ a b, l = a ++ (pyStrip l ++ b) := by
  obtain ⟨a, ha⟩ := List.dropWhile_suffix (l := l) Char.isWhitespace
  obtain ⟨b, hb⟩ := stripRight_prefix (stripLeft l)
  refine ⟨a, b, ?_⟩
  rw [show pyStrip l = stripRight (stripLeft l) from rfl, ← hb]
  rw [show stripLeft l = l.dropWhile Char.isWhitespace from rfl]
  exact ha.symm

/-- If a text has no fence, its strip does not start with the fence marker. -/
theorem isPrefixOf_pyStrip_false (s : Chars) (hsf : hasFence s = false) :
    fenceMark.isPrefixOf (pyStrip s) = false := by
  by_contra hx
  have hx' : fenceMark.isPrefixOf (pyStrip s) = true := by
    revert hx; cases fenceMark.isPrefixOf (pyStrip s) <;> simp
  have h1 := hasFence_of_fence_isPrefixOf _ hx'
  obtain ⟨a, b, hab⟩ := pyStrip_decomp s
  have h2 := hasFence_append_l a _ (hasFence_append_r _ b h1)
  rw [← hab] at h2
  rw [h2] at hsf
  exact Bool.noConfusion hsf

/-- C5 (amended): for every string `s` that contains no triple-backtick fence
marker and does not end in a backtick — in particular every valid JSON string
without a fence inside — extraction of `s` wrapped in a backtick fence with a
leading `json` tag and surrounding whitespace yields the same result as
extraction of the unwrapped `s` (both equal parsing the stripped `s`).  The
side condition is expressed as: `s ++` two backticks contains no fence. -/
theorem extract_fence_roundtrip (w1 w2 s : Chars)
    (h1 : ∀ c ∈ w1, c.isWhitespace = true) (h2 : ∀ c ∈ w2, c.isWhitespace = true)
    (hs : hasFence (s ++ [btick, btick]) = false) :
    extract (w1 ++ (fenceMark ++ (langTag ++ (s ++ (fenceMark ++ w2))))) = extract s := by
  have hb2 : hasFence ((langTag ++ s) ++ [btick, btick]) = false := by
    rw [show (langTag ++ s) ++ [btick, btick] =
          'j' :: 's' :: 'o' :: 'n' :: (s ++ [btick, btick]) from rfl]
    rw [hasFence_cons_of_ne _ _ (by decide), hasFence_cons_of_ne _ _ (by decide),
        hasFence_cons_of_ne _ _ (by decide), hasFence_cons_of_ne _ _ (by decide)]
    exact hs
  have hsf : hasFence s = false := by
    by_contra hx
    have hx' : hasFence s = true := by revert hx; cases hasFence s <;> simp
    have h3 := hasFence_append_r s [btick, btick] hx'
    rw [h3] at hs
    exact Bool.noConfusion hs
  have hstrip : pyStrip (w1 ++ (fenceMark ++ (langTag ++ (s ++ (fenceMark ++ w2))))) =
      fenceMark ++ ((langTag ++ s) ++ fenceMark) := by
    rw [show w1 ++ (fenceMark ++ (langTag ++ (s ++ (fenceMark ++ w2)))) =
          w1 ++ (btick :: ((btick :: btick :: (langTag ++ (s ++ [btick, btick]))) ++ [btick])) ++ w2
        from by simp [fenceMark]]
    rw [pyStrip_delimited _ _ _ h1 h2]
    simp [fenceMark]
  have hsplit : fenceSplit (fenceMark ++ ((langTag ++ s) ++ fenceMark)) =
      [[], langTag ++ s, []] := by
    unfold fenceSplit
    rw [show fenceMark ++ ((langTag ++ s) ++ fenceMark) =
          btick :: btick :: btick :: ((langTag ++ s) ++ fenceMark) from rfl]
    rw [fenceSplitGo_fence, fenceSplitGo_clean _ _ hb2]
    simp
  have hL : extract (w1 ++ (fenceMark ++ (langTag ++ (s ++ (fenceMark ++ w2))))) =
      parseJson (pyStrip s) := by
    simp only [extract]
    rw [hstrip]
    rw [if_pos (isPrefixOf_append_self fenceMark ((langTag ++ s) ++ fenceMark))]
    rw [hsplit]
    simp only [List.getD_cons_succ, List.getD_cons_zero]
    rw [if_pos (isPrefixOf_append_self langTag s)]
    rw [show (4 : Nat) = langTag.length from rfl, List.drop_left]
  have hR : extract s = parseJson (pyStrip s) := by
    simp only [extract]
    have hnc : ¬(fenceMark.isPrefixOf (pyStrip s) = true) := by
      rw [isPrefixOf_pyStrip_false s hsf]
      simp
    rw [if_neg hnc, pyStrip_idem]
  rw [hL, hR]

/-- Witness for the amended C5 at a concrete fenced JSON object. -/
theorem extract_fence_roundtrip_witness :
    hasFence ("\x7b\"a\": 1\x7d".toList ++ [btick, btick]) = false ∧
    extract (([] : Chars) ++ (fenceMark ++ (langTag ++
        ("\x7b\"a\": 1\x7d".toList ++ (fenceMark ++ ([] : Chars)))))) =
      extract "\x7b\"a\": 1\x7d".toList ∧
    extract "\x7b\"a\": 1\x7d".toList = some (Json.obj [("a".toList, Json.num 1)]) :=
  ⟨by decide,
   extract_fence_roundtrip [] [] "\x7b\"a\": 1\x7d".toList
     (fun c hc => absurd hc (by simp)) (fun c hc => absurd hc (by simp)) (by decide),
   rfl⟩

/-- Counterexample for C5 as stated: the JSON string literal whose value is a
triple backtick is valid JSON, yet wrapping it in a `json`-tagged fence makes
extraction fail (the split cuts at the inner fence), while unwrapped
extraction succeeds — the two results differ. -/
theorem extract_fence_cex :
    extract "```json\"```\"```".toList = none ∧
    extract "\"```\"".toList = some (Json.str fenceMark) ∧
    extract "```json\"```\"```".toList ≠ extract "\"```\"".toList := by
  refine ⟨rfl, rfl, ?_⟩
  intro h
  rw [show extract "```json\"```\"```".toList = none from rfl,
      show extract "\"```\"".toList = some (Json.str fenceMark) from rfl] at h
  exact Option.noConfusion h

/-!
Progress-profile lemmas for the sink records of one run.
-/

/-- Stage 1 always pushes exactly its 15% record. -/
theorem analyzeBackground_fst (gate : Bool) (o : Oracle) (s : PState) :
    (analyzeBackground gate o s).1 = streamUpd gate "analyzing".toList
      ("Analyzing your background for ".toList ++ pyShow s.topic ++ "...".toList) 15 o.now := by
  unfold analyzeBackground
  cases o.r1 <;> rfl

/-- Stage 2 always pushes exactly its 40% record. -/
theorem generateCurriculum_fst (gate : Bool) (o : Oracle) (s : PState) :
    (generateCurriculum gate o s).1 = streamUpd gate "generating".toList
      ("Creating curriculum structure for ".toList ++ pyShow s.topic ++ "...".toList)
      40 o.now := by
  unfold generateCurriculum
  cases o.r2 <;> rfl

/-- Stage 4 always pushes exactly its 100% record. -/
theorem finalizePath_fst (gate : Bool) (o : Oracle) (s : PState) :
    (finalizePath gate o s).1 = streamUpd gate "completed".toList
      ("Your ".toList ++ pyShow s.topic ++ " learning path is ready! 🎉".toList)
      100 o.now := by
  unfold finalizePath
  cases s.curriculum_structure with
  | none => rfl
  | some cs => cases cs <;> rfl

/-- A successful stage 4 leaves the state at progress 100. -/
theorem finalizePath_ok_progress (gate : Bool) (o : Oracle) (s s' : PState)
    (h : (finalizePath gate o s).2 = .ok s') : s'.progress = 100 := by
  cases hcs : s.curriculum_structure with
  | none => simp [finalizePath, hcs] at h
  | some cs =>
    cases cs
    case obj kvs =>
      simp only [finalizePath, hcs] at h
      simp only [Except.ok.injEq] at h
      rw [← h]
    all_goals simp [finalizePath, hcs] at h

/-- The sink records of the enrichment loop carry the interpolated progress
values for an initial segment of the modules. -/
theorem enrichGo_fst_shape (n now : Nat) (resps : Nat → Except Chars Chars) :
    ∀ (ms : List Json) (idx : Nat),
      ∃ j, j ≤ ms.length ∧
        (enrichGo true n now resps idx ms).1.map SinkRecord.progress =
          (List.range j).map fun i => 75 + 15 * (idx + 1 + i) / n := by
  intro ms
  induction ms with
  | nil => intro idx; exact ⟨0, by simp, by simp [enrichGo]⟩
  | cons m rest ih =>
    intro idx
    cases hmo : moduleOk m with
    | false => exact ⟨0, by simp, by simp [enrichGo, hmo]⟩
    | true =>
      cases hr : resps idx with
      | error e => exact ⟨0, by simp, by simp [enrichGo, hmo, hr]⟩
      | ok content =>
        cases hrv : resourcesOf content with
        | error e => exact ⟨0, by simp, by simp [enrichGo, hmo, hr, hrv]⟩
        | ok v =>
          obtain ⟨j, hj, hmap⟩ := ih (idx + 1)
          refine ⟨j + 1, by simpa using hj, ?_⟩
          have hfst : (enrichGo true n now resps idx (m :: rest)).1 =
              (⟨"enriching".toList,
                "Enriched module ".toList ++ natStr (idx + 1) ++ "/".toList ++ natStr n,
                75 + 15 * (idx + 1) / n, now⟩ : SinkRecord) ::
              (enrichGo true n now resps (idx + 1) rest).1 := by
            simp [enrichGo, hmo, hr, hrv, streamUpd]
          rw [hfst]
          simp only [List.map_cons, hmap, List.range_succ_eq_map, List.map_map]
          congr 1
          apply List.map_congr_left
          intro i _
          show 75 + 15 * (idx + 1 + 1 + i) / n = 75 + 15 * (idx + 1 + (i + 1)) / n
          congr 2
          omega

/-- The enrichment stage's records are the 75% record followed by the
interpolated records of an initial segment of the modules. -/
theorem enrichResources_fst_shape (o : Oracle) (s : PState) :
    ∃ j n, j ≤ n ∧
      (enrichResources true o s).1.map SinkRecord.progress =
        75 :: ((List.range j).map fun i => 75 + 15 * (1 + i) / n) := by
  cases hcs : s.curriculum_structure with
  | none => exact ⟨0, 0, Nat.le_refl 0, by simp [enrichResources, hcs, streamUpd]⟩
  | some cs =>
    cases cs
    case obj kvs =>
      cases hlk : jLookup kvs "modules".toList with
      | none =>
        exact ⟨0, 0, Nat.le_refl 0,
          by simp only [enrichResources, hcs, hlk]; simp [streamUpd]⟩
      | some v =>
        cases v
        case arr ms =>
          obtain ⟨j, hj, hmap⟩ := enrichGo_fst_shape ms.length o.now o.r3 ms 0
          refine ⟨j, ms.length, hj, ?_⟩
          cases ht : (enrichGo true ms.length o.now o.r3 0 ms).2 with
          | error e => simp only [enrichResources, hcs, hlk, ht]; simp [streamUpd, hmap]
          | ok es => simp only [enrichResources, hcs, hlk, ht]; simp [streamUpd, hmap]
        all_goals exact ⟨0, 0, Nat.le_refl 0,
          by simp only [enrichResources, hcs, hlk]; simp [streamUpd]⟩
    all_goals exact ⟨0, 0, Nat.le_refl 0,
      by simp only [enrichResources, hcs]; simp [streamUpd]⟩

/-- Bounds for the interpolated progress values. -/
theorem loop_progress_bounds (j n : Nat) (hj : j ≤ n) (p : Nat)
    (hp : p ∈ (List.range j).map fun i => 75 + 15 * (1 + i) / n) :
    75 ≤ p ∧ p ≤ 90 := by
  rw [List.mem_map] at hp
  obtain ⟨i, hi, rfl⟩ := hp
  rw [List.mem_range] at hi
  refine ⟨Nat.le_add_right 75 _, ?_⟩
  rcases Nat.eq_zero_or_pos n with hn | hn
  · omega
  · have h1 : 1 + i ≤ n := by omega
    have h2 : 15 * (1 + i) / n ≤ 15 * n / n :=
      Nat.div_le_div_right (Nat.mul_le_mul_left 15 h1)
    rw [Nat.mul_div_cancel 15 hn] at h2
    omega

/-- The interpolated progress values are non-decreasing. -/
theorem loop_progress_pairwise (j n : Nat) :
    List.Pairwise (· ≤ ·) ((List.range j).map fun i => 75 + 15 * (1 + i) / n) := by
  refine (List.pairwise_lt_range j).map _ ?_
  intro a b hab
  exact Nat.add_le_add_left (Nat.div_le_div_right (Nat.mul_le_mul_left 15 (by omega))) 75

/-- Helper: on a successful run with the sink configured, the pushed progress
values are non-decreasing, the last one is 100, and the final state's
progress is 100. -/
theorem runPipeline_ok_profile (o : Oracle) (s0 : PState) (us : List SinkRecord) (s4 : PState)
    (h : runPipeline true o s0 = (us, .ok s4)) :
    List.Pairwise (· ≤ ·) (us.map SinkRecord.progress) ∧
    (us.map SinkRecord.progress).getLast? = some 100 ∧ s4.progress = 100 := by
  simp only [runPipeline] at h
  cases h1 : (analyzeBackground true o s0).2 with
  | error e => rw [h1] at h; simp at h
  | ok s1 =>
    rw [h1] at h
    simp only [] at h
    cases h2 : (generateCurriculum true o s1).2 with
    | error e => rw [h2] at h; simp at h
    | ok s2 =>
      rw [h2] at h
      simp only [] at h
      cases h3 : (enrichResources true o s2).2 with
      | error e => rw [h3] at h; simp at h
      | ok s3 =>
        rw [h3] at h
        simp only [] at h
        cases h4 : (finalizePath true o s3).2 with
        | error e => rw [h4] at h; simp at h
        | ok s4' =>
          rw [h4] at h
          simp only [Prod.mk.injEq, Except.ok.injEq] at h
          obtain ⟨hus, hs4⟩ := h
          subst hs4
          subst hus
          obtain ⟨j, n, hj, hmap3⟩ := enrichResources_fst_shape o s2
          have hm : ((analyzeBackground true o s0).1 ++ (generateCurriculum true o s1).1 ++
              (enrichResources true o s2).1 ++ (finalizePath true o s3).1).map
                SinkRecord.progress =
              15 :: 40 :: 75 :: (((List.range j).map fun i => 75 + 15 * (1 + i) / n) ++ [100]) := by
            simp [List.map_append, analyzeBackground_fst, generateCurriculum_fst,
                  finalizePath_fst, streamUpd, hmap3]
          rw [hm]
          refine ⟨?_, ?_, finalizePath_ok_progress true o s3 s4' h4⟩
          · refine List.pairwise_cons.mpr ⟨?_, List.pairwise_cons.mpr ⟨?_,
              List.pairwise_cons.mpr ⟨?_, ?_⟩⟩⟩
            · intro b hb
              simp only [List.mem_cons, List.mem_append, List.mem_nil_iff, or_false] at hb
              rcases hb with rfl | rfl | hb | rfl
              · omega
              · omega
              · have := (loop_progress_bounds j n hj b hb).1; omega
              · omega
            · intro b hb
              simp only [List.mem_cons, List.mem_append, List.mem_nil_iff, or_false] at hb
              rcases hb with rfl | hb | rfl
              · omega
              · have := (loop_progress_bounds j n hj b hb).1; omega
              · omega
            · intro b hb
              simp only [List.mem_append, List.mem_cons, List.mem_nil_iff, or_false] at hb
              rcases hb with hb | rfl
              · exact (loop_progress_bounds j n hj b hb).1
              · omega
            · refine List.pairwise_append.mpr ⟨loop_progress_pairwise j n, ?_, ?_⟩
              · simp
              · intro a ha b hb
                simp only [List.mem_cons, List.mem_nil_iff, or_false] at hb
                subst hb
                have := (loop_progress_bounds j n hj a ha).2; omega
          · rw [show (15 : Nat) :: 40 :: 75 ::
                  (((List.range j).map fun i => 75 + 15 * (1 + i) / n) ++ [100]) =
                ((15 : Nat) :: 40 :: 75 ::
                  ((List.range j).map fun i => 75 + 15 * (1 + i) / n)) ++ [100] from by simp]
            exact List.getLast?_concat _

/-- C4 (amended): with the sink configured, the progress values the sink
observes during the pipeline of a successful run are non-decreasing and end
at exactly 100 (the state's own progress also ends at 100); on a failing run
the final observed value is the error record's 0, which may be lower than an
earlier observation — observations across a failing run are therefore not
non-decreasing. -/
theorem progress_stream_profile (req : Req) (ctx : Ctx) (o : Oracle)
    (hgate : handlerGate req ctx = true) :
    (∀ us s4, runPipeline true o (initState req) = (us, .ok s4) →
      ((handler req ctx { hasApiKey := true } o).sinkUpdates = us ∧
       List.Pairwise (· ≤ ·) (us.map SinkRecord.progress) ∧
       (us.map SinkRecord.progress).getLast? = some 100 ∧ s4.progress = 100)) ∧
    (∀ us e, runPipeline true o (initState req) = (us, .error e) →
      ((handler req ctx { hasApiKey := true } o).sinkUpdates.map
          SinkRecord.progress).getLast? = some 0) := by
  constructor
  · intro us s4 hrun
    have hh : (handler req ctx { hasApiKey := true } o).sinkUpdates = us := by
      simp [handler, hgate, hrun]
    obtain ⟨hp, hl, hs4⟩ := runPipeline_ok_profile o (initState req) us s4 hrun
    exact ⟨hh, hp, hl, hs4⟩
  · intro us e hrun
    have hh : (handler req ctx { hasApiKey := true } o).sinkUpdates =
        us ++ [⟨"error".toList, "Failed to generate learning path: ".toList ++ e, 0, o.now⟩] := by
      simp [handler, hgate, hrun, failureOut]
    rw [hh]
    simp

/-- Witness for the amended C4 at the concrete successful one-module run. -/
theorem progress_stream_profile_witness :
    handlerGate req0 ctx0 = true ∧
    runPipeline true o0 (initState req0) =
      ([⟨"analyzing".toList, "Analyzing your background for T...".toList, 15, 5⟩,
        ⟨"generating".toList, "Creating curriculum structure for T...".toList, 40, 5⟩,
        ⟨"enriching".toList, "Finding the best learning resources...".toList, 75, 5⟩,
        ⟨"enriching".toList, "Enriched module 1/1".toList, 90, 5⟩,
        ⟨"completed".toList, "Your T learning path is ready! 🎉".toList, 100, 5⟩],
       .ok sW4) ∧
    ((handler req0 ctx0 { hasApiKey := true } o0).sinkUpdates =
      [⟨"analyzing".toList, "Analyzing your background for T...".toList, 15, 5⟩,
       ⟨"generating".toList, "Creating curriculum structure for T...".toList, 40, 5⟩,
       ⟨"enriching".toList, "Finding the best learning resources...".toList, 75, 5⟩,
       ⟨"enriching".toList, "Enriched module 1/1".toList, 90, 5⟩,
       ⟨"completed".toList, "Your T learning path is ready! 🎉".toList, 100, 5⟩] ∧
     List.Pairwise (· ≤ ·)
       ([⟨"analyzing".toList, "Analyzing your background for T...".toList, 15, 5⟩,
         ⟨"generating".toList, "Creating curriculum structure for T...".toList, 40, 5⟩,
         ⟨"enriching".toList, "Finding the best learning resources...".toList, 75, 5⟩,
         ⟨"enriching".toList, "Enriched module 1/1".toList, 90, 5⟩,
         ⟨"completed".toList, "Your T learning path is ready! 🎉".toList, 100, 5⟩].map
           SinkRecord.progress) ∧
     ([⟨"analyzing".toList, "Analyzing your background for T...".toList, 15, 5⟩,
       ⟨"generating".toList, "Creating curriculum structure for T...".toList, 40, 5⟩,
       ⟨"enriching".toList, "Finding the best learning resources...".toList, 75, 5⟩,
       ⟨"enriching".toList, "Enriched module 1/1".toList, 90, 5⟩,
       ⟨"completed".toList, "Your T learning path is ready! 🎉".toList, 100, 5⟩].map
         SinkRecord.progress).getLast? = some 100 ∧
     sW4.progress = 100) :=
  ⟨rfl, rfl,
   (progress_stream_profile req0 ctx0 o0 rfl).1
     [⟨"analyzing".toList, "Analyzing your background for T...".toList, 15, 5⟩,
      ⟨"generating".toList, "Creating curriculum structure for T...".toList, 40, 5⟩,
      ⟨"enriching".toList, "Finding the best learning resources...".toList, 75, 5⟩,
      ⟨"enriching".toList, "Enriched module 1/1".toList, 90, 5⟩,
      ⟨"completed".toList, "Your T learning path is ready! 🎉".toList, 100, 5⟩]
     sW4 rfl⟩

/-- Counterexample for C4 as stated: in a run whose first model call raises,
the sink observes 15 and then the terminal error record at 0 — the observed
sequence across the run is not non-decreasing. -/
theorem progress_stream_cex :
    (handler req0 ctx0 { hasApiKey := true } oFail1).sinkUpdates.map SinkRecord.progress =
      [15, 0] ∧
    ¬ List.Pairwise (· ≤ ·)
        ((handler req0 ctx0 { hasApiKey := true } oFail1).sinkUpdates.map
          SinkRecord.progress) := by
  refine ⟨rfl, ?_⟩
  intro hp
  rw [show (handler req0 ctx0 { hasApiKey := true } oFail1).sinkUpdates.map
        SinkRecord.progress = [15, 0] from rfl] at hp
  have := (List.pairwise_cons.mp hp).1 0 (by simp)
  omega

/-!
Stage output shapes for the frame/ownership claim.
-/

/-- A successful stage 1 only sets `analysis`, progress and the stage tag. -/
theorem analyzeBackground_ok_shape (g : Bool) (o : Oracle) (s : PState)
    (u : List SinkRecord) (s' : PState) (h : analyzeBackground g o s = (u, .ok s')) :
    ∃ a, s' = { s with analysis := some a, progress := 20,
                       current_stage := "analyzing".toList } := by
  cases hr : o.r1 with
  | error e => simp [analyzeBackground, hr] at h
  | ok c =>
    simp only [analyzeBackground] at h
    rw [hr] at h
    simp only [] at h
    simp only [Prod.mk.injEq, Except.ok.injEq] at h
    exact ⟨pyStrip c, h.2.symm⟩

/-- A successful stage 2 only sets `curriculum_structure`, progress and the
stage tag. -/
theorem generateCurriculum_ok_shape (g : Bool) (o : Oracle) (s : PState)
    (u : List SinkRecord) (s' : PState) (h : generateCurriculum g o s = (u, .ok s')) :
    ∃ cur, s' = { s with curriculum_structure := some cur, progress := 60,
                         current_stage := "generating".toList } := by
  cases hr : o.r2 with
  | error e => simp [generateCurriculum, hr] at h
  | ok c =>
    simp only [generateCurriculum] at h
    rw [hr] at h
    simp only [] at h
    simp only [Prod.mk.injEq, Except.ok.injEq] at h
    exact ⟨_, h.2.symm⟩

/-- A successful stage 3 sets `enriched_modules`, progress and the stage tag,
and — when the curriculum carries a `modules` key — also rewrites the value
of `curriculum_structure` (the loop mutated the module dicts it holds). -/
theorem enrichResources_ok_shape (g : Bool) (o : Oracle) (s : PState)
    (u : List SinkRecord) (s' : PState) (h : enrichResources g o s = (u, .ok s')) :
    (∃ kvs es, s.curriculum_structure = some (Json.obj kvs) ∧
       s' = { s with
         curriculum_structure := some (jSet (Json.obj kvs) "modules".toList (Json.arr es)),
         enriched_modules := some es, progress := 90,
         current_stage := "enriching".toList }) ∨
    (∃ kvs, s.curriculum_structure = some (Json.obj kvs) ∧
       jLookup kvs "modules".toList = none ∧
       s' = { s with enriched_modules := some ([] : List Json), progress := 90,
                     current_stage := "enriching".toList }) := by
  cases hcs : s.curriculum_structure with
  | none => simp [enrichResources, hcs] at h
  | some cs =>
    cases cs
    case obj kvs =>
      cases hlk : jLookup kvs "modules".toList with
      | none =>
        simp only [enrichResources, hcs, hlk] at h
        simp only [Prod.mk.injEq, Except.ok.injEq] at h
        exact Or.inr ⟨kvs, rfl, hlk, h.2.symm⟩
      | some v =>
        cases v
        case arr ms =>
          cases ht : (enrichGo g ms.length o.now o.r3 0 ms).2 with
          | error e =>
            simp only [enrichResources, hcs, hlk, ht] at h
            simp at h
          | ok es =>
            simp only [enrichResources, hcs, hlk, ht] at h
            simp only [Prod.mk.injEq, Except.ok.injEq] at h
            exact Or.inl ⟨kvs, es, rfl, h.2.symm⟩
        all_goals (simp only [enrichResources, hcs, hlk] at h; simp at h)
    all_goals (simp only [enrichResources, hcs] at h; simp at h)

/-- A successful stage 4 sets `final_path`, progress and the stage tag, and
overwrites the `modules` entry of `curriculum_structure`. -/
theorem finalizePath_ok_shape (g : Bool) (o : Oracle) (s : PState)
    (u : List SinkRecord) (s' : PState) (h : finalizePath g o s = (u, .ok s')) :
    ∃ kvs fp, s.curriculum_structure = some (Json.obj kvs) ∧
      s' = { s with
        curriculum_structure := some (Json.obj (jSetKey kvs "modules".toList
          (match s.enriched_modules with
           | some es => Json.arr es
           | none => Json.null))),
        final_path := some fp, progress := 100,
        current_stage := "completed".toList } := by
  cases hcs : s.curriculum_structure with
  | none => simp [finalizePath, hcs] at h
  | some cs =>
    cases cs
    case obj kvs =>
      simp only [finalizePath, hcs] at h
      simp only [Prod.mk.injEq, Except.ok.injEq] at h
      exact ⟨kvs, _, rfl, h.2.symm⟩
    all_goals (simp only [finalizePath, hcs] at h; simp at h)

/-- C7 (amended): across a successful four-stage run starting from the all-null
initial state, exactly one of analysis / curriculumStructure / enrichedModules
/ finalPath becomes non-null per stage, in the fixed order, and analysis,
enrichedModules and finalPath are never touched by a later stage; however the
curriculum field is not frame-preserved: stage 3 rewrites the module records
held inside `curriculumStructure` (in-place mutation of the shared dicts)
whenever the `modules` key is present, and stage 4 overwrites
`curriculumStructure.modules` with the enriched list. -/
theorem stage_frame_ownership (g : Bool) (o : Oracle) (s0 s1 s2 s3 s4 : PState)
    (u1 u2 u3 u4 : List SinkRecord)
    (hnull : s0.analysis = none ∧ s0.curriculum_structure = none ∧
             s0.enriched_modules = none ∧ s0.final_path = none)
    (h1 : analyzeBackground g o s0 = (u1, .ok s1))
    (h2 : generateCurriculum g o s1 = (u2, .ok s2))
    (h3 : enrichResources g o s2 = (u3, .ok s3))
    (h4 : finalizePath g o s3 = (u4, .ok s4)) :
    (s1.analysis.isSome = true ∧ s1.curriculum_structure = none ∧
      s1.enriched_modules = none ∧ s1.final_path = none ∧ s1.progress = 20) ∧
    (s2.analysis = s1.analysis ∧ s2.curriculum_structure.isSome = true ∧
      s2.enriched_modules = none ∧ s2.final_path = none ∧ s2.progress = 60) ∧
    (s3.analysis = s2.analysis ∧ s3.enriched_modules.isSome = true ∧
      s3.final_path = none ∧ s3.progress = 90) ∧
    (s4.analysis = s3.analysis ∧ s4.enriched_modules = s3.enriched_modules ∧
      s4.final_path.isSome = true ∧ s4.progress = 100) ∧
    ((∃ cs es, s2.curriculum_structure = some cs ∧ s3.enriched_modules = some es ∧
        s3.curriculum_structure = some (jSet cs "modules".toList (Json.arr es))) ∨
     (s3.curriculum_structure = s2.curriculum_structure ∧
        s3.enriched_modules = some ([] : List Json))) ∧
    (∀ kvs, s3.curriculum_structure = some (Json.obj kvs) →
      s4.curriculum_structure = some (Json.obj (jSetKey kvs "modules".toList
        (match s3.enriched_modules with
         | some es => Json.arr es
         | none => Json.null)))) := by
  obtain ⟨hA, hC, hE, hF⟩ := hnull
  obtain ⟨a1, hs1⟩ := analyzeBackground_ok_shape g o s0 u1 s1 h1
  subst hs1
  obtain ⟨cur, hs2⟩ := generateCurriculum_ok_shape g o _ u2 s2 h2
  subst hs2
  rcases enrichResources_ok_shape g o _ u3 s3 h3 with ⟨kvs, es, hcs2, hs3⟩ | ⟨kvs, hcs2, hlk, hs3⟩
  · subst hs3
    obtain ⟨kvs4, fp, hcs3, hs4⟩ := finalizePath_ok_shape g o _ u4 s4 h4
    subst hs4
    refine ⟨⟨rfl, hC, hE, hF, rfl⟩, ⟨rfl, rfl, hE, hF, rfl⟩, ⟨rfl, rfl, hF, rfl⟩,
            ⟨rfl, rfl, rfl, rfl⟩, Or.inl ⟨Json.obj kvs, es, hcs2, rfl, rfl⟩, ?_⟩
    intro kvs' hk
    have h5 := hcs3.symm.trans hk
    simp only [Option.some.injEq, Json.obj.injEq] at h5
    subst h5
    rfl
  · subst hs3
    obtain ⟨kvs4, fp, hcs3, hs4⟩ := finalizePath_ok_shape g o _ u4 s4 h4
    subst hs4
    refine ⟨⟨rfl, hC, hE, hF, rfl⟩, ⟨rfl, rfl, hE, hF, rfl⟩, ⟨rfl, rfl, hF, rfl⟩,
            ⟨rfl, rfl, rfl, rfl⟩, Or.inr ⟨rfl, rfl⟩, ?_⟩
    intro kvs' hk
    have h5 := hcs3.symm.trans hk
    simp only [Option.some.injEq, Json.obj.injEq] at h5
    subst h5
    rfl

/-- Witness for the amended C7 at the concrete successful one-module run. -/
theorem stage_frame_ownership_witness :
    (sW1.analysis.isSome = true ∧ sW1.curriculum_structure = none ∧
      sW1.enriched_modules = none ∧ sW1.final_path = none ∧ sW1.progress = 20) ∧
    (sW2.analysis = sW1.analysis ∧ sW2.curriculum_structure.isSome = true ∧
      sW2.enriched_modules = none ∧ sW2.final_path = none ∧ sW2.progress = 60) ∧
    (sW3.analysis = sW2.analysis ∧ sW3.enriched_modules.isSome = true ∧
      sW3.final_path = none ∧ sW3.progress = 90) ∧
    (sW4.analysis = sW3.analysis ∧ sW4.enriched_modules = sW3.enriched_modules ∧
      sW4.final_path.isSome = true ∧ sW4.progress = 100) ∧
    ((∃ cs es, sW2.curriculum_structure = some cs ∧ sW3.enriched_modules = some es ∧
        sW3.curriculum_structure = some (jSet cs "modules".toList (Json.arr es))) ∨
     (sW3.curriculum_structure = sW2.curriculum_structure ∧
        sW3.enriched_modules = some ([] : List Json))) ∧
    (∀ kvs, sW3.curriculum_structure = some (Json.obj kvs) →
      sW4.curriculum_structure = some (Json.obj (jSetKey kvs "modules".toList
        (match sW3.enriched_modules with
         | some es => Json.arr es
         | none => Json.null)))) :=
  stage_frame_ownership true o0 (initState req0) sW1 sW2 sW3 sW4
    [⟨"analyzing".toList, "Analyzing your background for T...".toList, 15, 5⟩]
    [⟨"generating".toList, "Creating curriculum structure for T...".toList, 40, 5⟩]
    [⟨"enriching".toList, "Finding the best learning resources...".toList, 75, 5⟩,
     ⟨"enriching".toList, "Enriched module 1/1".toList, 90, 5⟩]
    [⟨"completed".toList, "Your T learning path is ready! 🎉".toList, 100, 5⟩]
    ⟨rfl, rfl, rfl, rfl⟩ rfl rfl rfl rfl

/-- Counterexample for C7 as stated: the enrichment stage changes the value
of `curriculum_structure`, the field owned by stage 2 — the module record it
holds gains a `resources` entry — so "no stage mutates a field (or the data
it holds) owned by an earlier or later stage" is false on the code. -/
theorem stage_frame_cex :
    (enrichResources true o0 sW2).2 = .ok sW3 ∧
    sW3.curriculum_structure ≠ sW2.curriculum_structure := by
  refine ⟨rfl, ?_⟩
  intro h
  exact absurd (congrArg (fun oj => match oj with
    | some (Json.obj ((_, Json.arr (Json.obj kvs :: _)) :: _)) => kvs.length
    | _ => 0) h) (by decide)
